import Mathlib

/-!
# Verification of the PBS Pro attribute subsystem sample

Shallow embedding of three source files of the repository:

* `src/server/svr_resccost.c` — the "resource cost" attribute kind
  (`decode_rcost`, `encode_rcost`, `set_rcost`, `free_rcost`,
  `add_cost_entry`);
* `src/lib/Libifl/dec_attropl.c` — the attribute-operation wire decoder
  (`decode_DIS_attropl`);
* `src/server/queue_recov_db.c` — queue persistence (`que_save_db`,
  `que_recov_db`).

C pointers and in-place mutation are embedded by explicit state passing:
each C function becomes a Lean function from its input state to its
result code paired with the updated state.  `malloc` outcomes are an
explicit oracle (a `List Bool`; an exhausted oracle means the allocation
succeeds).  Machine `long` is embedded as `Int` (the claims do not
depend on overflow behaviour) and C strings as `String`/`Option String`
(`NULL` = `none`).
-/

set_option linter.unusedVariables false

namespace PbsPro

/-! ## Error codes

`pbs_error.h` and `dis.h` are not part of the sample; the claims only
need the codes to be distinct and non-zero, so the numeric values below
are nominal. -/

/-- `PBSE_UNKRESC`: unknown resource name. -/
def PBSE_UNKRESC : Nat := 15010

/-- `PBSE_SYSTEM`: system error (for example a failed `malloc`). -/
def PBSE_SYSTEM : Nat := 15001

/-- `PBSE_INTERNAL`: internal (unsupported-operator) error. -/
def PBSE_INTERNAL : Nat := 15011

/-- `DIS_NOMALLOC`: DIS-layer code for a failed allocation. -/
def DIS_NOMALLOC : Nat := 8

/-- `DIS_PROTO`: DIS-layer code for a malformed or truncated stream
(standing for any non-zero status returned by `disrui`/`disrst`). -/
def DIS_PROTO : Nat := 9

/-! ## C `atol` and `sprintf("%ld")`

`decode_rcost` converts the value string with the C library's `atol`
(skip leading white space, optional single sign, then a maximal run of
decimal digits; a string with no leading digits yields 0).
`encode_rcost` prints the cost with `sprintf(buf, "%ld", cost)`. -/

/-- The six white-space characters accepted by C `isspace` in the
default locale. -/
def isSpaceCh (c : Char) : Bool :=
  c = ' ' || c = '\t' || c = '\n' || c = '\x0b' || c = '\x0c' || c = '\r'

/-- C `isdigit`: `'0'` through `'9'`. -/
def isDigitCh (c : Char) : Bool :=
  48 ≤ c.toNat && c.toNat ≤ 57

/-- Numeric value of a digit character. -/
def digitVal (c : Char) : Int :=
  (c.toNat : Int) - 48

/-- The digit-accumulation loop of `atol`: consume leading digits,
stop at the first non-digit. -/
def atolDigits : List Char → Int → Int
  | [], acc => acc
  | c :: cs, acc => if isDigitCh c then atolDigits cs (acc * 10 + digitVal c) else acc

/-- Skip leading white space, as `atol` does. -/
def skipSpace : List Char → List Char
  | [] => []
  | c :: cs => if isSpaceCh c then skipSpace cs else c :: cs

/-- C `atol` on a character list: white space, optional sign, digits. -/
def atolChars (cs : List Char) : Int :=
  match skipSpace cs with
  | [] => 0
  | c :: rest =>
    if c = '-' then - atolDigits rest 0
    else if c = '+' then atolDigits rest 0
    else atolDigits (c :: rest) 0

/-- C `atol`. -/
def atol (s : String) : Int :=
  atolChars s.data

/-- The decimal digit characters. -/
def digitChar (d : Nat) : Char :=
  if d = 0 then '0' else if d = 1 then '1' else if d = 2 then '2'
  else if d = 3 then '3' else if d = 4 then '4' else if d = 5 then '5'
  else if d = 6 then '6' else if d = 7 then '7' else if d = 8 then '8'
  else '9'

/-- Decimal digit list of a natural number, fuelled so that it reduces
by structural recursion (the fuel `n + 1` always suffices). -/
def natDecCharsAux : Nat → Nat → List Char
  | 0, _ => []
  | fuel + 1, n =>
    if n < 10 then [digitChar n]
    else natDecCharsAux fuel (n / 10) ++ [digitChar (n % 10)]

/-- Decimal digit characters of a natural number, most significant
first (`"0"` for zero, no leading zeros otherwise). -/
def natDecChars (n : Nat) : List Char :=
  natDecCharsAux (n + 1) n

/-- `sprintf(buf, "%ld", v)`: minus sign for negative values followed
by the decimal digits of the absolute value. -/
def sprintf_ld (v : Int) : String :=
  if v < 0 then String.mk ('-' :: natDecChars v.natAbs)
  else String.mk (natDecChars v.toNat)

/-! ## Resource definitions

`find_resc_def(svr_resc_def, name, svr_resc_size)` scans the global
resource-definition table for an entry with the given name.  The table
is embedded as the list of registered names, and a `resource_def *` as
the index of the first entry carrying that name (pointer identity =
index identity, since the table is immutable). -/

/-- `find_resc_def`: index of the first table entry named `name`. -/
def find_resc_def (tbl : List String) (name : String) : Option Nat :=
  match tbl with
  | [] => none
  | r :: rest =>
    if r = name then some 0
    else (find_resc_def rest name).map (· + 1)

/-! ## The resource-cost attribute (`svr_resccost.c`) -/

/-- The `ATR_VFLAG_SET` / `ATR_VFLAG_MODIFY` / `ATR_VFLAG_MODCACHE`
bits of `attribute.at_flags` (the only bits these functions touch). -/
structure Flags where
  set : Bool
  modify : Bool
  modcache : Bool
deriving DecidableEq

/-- `struct resource_cost`: one node of the cost list.  `rc_def` is the
index of the resource definition in the global table. -/
structure CostEntry where
  rc_def : Nat
  rc_cost : Int
deriving DecidableEq

/-- A resource-cost `attribute`: its flag bits and the `at_val.at_list`
chain of `resource_cost` nodes, in list order. -/
structure CostAttr where
  at_flags : Flags
  at_list : List CostEntry
deriving DecidableEq

/-- `add_cost_entry`: append a fresh zero-cost node for `prdef` to the
attribute's list (the allocation-failure case is handled at each call
site via the oracle). -/
def add_cost_entry (l : List CostEntry) (prdef : Nat) : List CostEntry :=
  l ++ [⟨prdef, 0⟩]

/-- `free_rcost`: delete every node of the cost list and clear
`ATR_VFLAG_SET`. -/
def free_rcost (pattr : CostAttr) : CostAttr :=
  { pattr with at_list := [], at_flags := { pattr.at_flags with set := false } }

/-- The flag update `at_flags |= ATR_VFLAG_SET | ATR_VFLAG_MODIFY |
ATR_VFLAG_MODCACHE` shared by `decode_rcost` and `set_rcost`. -/
def setFlags (a : CostAttr) : CostAttr :=
  { a with at_flags := { set := true, modify := true, modcache := true } }

/-- Overwrite the cost of the first node for resource `d` (the node the
`while (pcost)` lookup loops stop at). -/
def updateCost (l : List CostEntry) (d : Nat) (f : Int → Int) : List CostEntry :=
  match l with
  | [] => []
  | e :: es =>
    if e.rc_def = d then { e with rc_cost := f e.rc_cost } :: es
    else e :: updateCost es d f

/-- `decode_rcost(patr, name, rescn, val)`.  Result: the returned error
code paired with the attribute after the call.  `allocOk` is the
outcome of the single possible `malloc` inside `add_cost_entry`. -/
def decode_rcost (tbl : List String) (patr : CostAttr) (name : String)
    (rescn : Option String) (val : Option String) (allocOk : Bool) :
    Nat × CostAttr :=
  match val, rescn with
  | none, _ =>
    (0, { patr with at_flags := { patr.at_flags with set := false, modify := true } })
  | some _, none =>
    (0, { patr with at_flags := { patr.at_flags with set := false, modify := true } })
  | some v, some rn =>
    let p1 := if patr.at_flags.set then free_rcost patr else patr
    match find_resc_def tbl rn with
    | none => (PBSE_UNKRESC, p1)
    | some prdef =>
      if p1.at_list.any (fun e => e.rc_def == prdef) then
        (0, setFlags { p1 with at_list := updateCost p1.at_list prdef (fun _ => atol v) })
      else if allocOk then
        (0, setFlags { p1 with at_list := updateCost (add_cost_entry p1.at_list prdef) prdef (fun _ => atol v) })
      else
        (PBSE_SYSTEM, p1)

/-- `enum batch_op` of `pbs_ifl.h`. -/
inductive BatchOp
  | SET | UNSET | INCR | DECR | EQL | NEQ | GE | GT | LE | LT | DFLT
deriving DecidableEq

/-- The per-source-entry loop of `set_rcost`: find-or-create the
matching node in `old`, then apply the operator; the `default:` branch
of the `switch` returns `PBSE_INTERNAL` with the (possibly extended)
list as it stands.  The oracle supplies one `malloc` outcome per
`add_cost_entry` call. -/
def set_rcost_loop (oldl : List CostEntry) (news : List CostEntry)
    (op : BatchOp) (oracle : List Bool) : Nat × List CostEntry :=
  match news with
  | [] => (0, oldl)
  | e :: rest =>
    let found := oldl.any (fun x => x.rc_def == e.rc_def)
    if !found && !(oracle.headD true) then
      (PBSE_SYSTEM, oldl)
    else
      let oldl1 := if found then oldl else add_cost_entry oldl e.rc_def
      let oracle1 := if found then oracle else oracle.tail
      match op with
      | BatchOp.SET => set_rcost_loop (updateCost oldl1 e.rc_def (fun _ => e.rc_cost)) rest op oracle1
      | BatchOp.INCR => set_rcost_loop (updateCost oldl1 e.rc_def (fun c => c + e.rc_cost)) rest op oracle1
      | BatchOp.DECR => set_rcost_loop (updateCost oldl1 e.rc_def (fun c => c - e.rc_cost)) rest op oracle1
      | _ => (PBSE_INTERNAL, oldl1)

/-- `set_rcost(old, new, op)`.  `none` embeds the `assert` on
`new->at_flags & ATR_VFLAG_SET` firing (process abort); otherwise the
result is the returned code paired with `old` after the call.  The
closing `at_flags |=` runs only when the loop completed (returned 0). -/
def set_rcost (old new : CostAttr) (op : BatchOp) (oracle : List Bool) :
    Option (Nat × CostAttr) :=
  if new.at_flags.set = false then none
  else
    let r := set_rcost_loop old.at_list new.at_list op oracle
    if r.1 = 0 then some (0, setFlags { old with at_list := r.2 })
    else some (r.1, { old with at_list := r.2 })

/-- One `svrattrl` wire tuple as built by `attrlist_create` inside
`encode_rcost` (`al_sister` chaining of consecutive tuples is implicit
in list adjacency). -/
structure SvrAttrl where
  al_name : String
  al_resc : String
  al_value : String
  al_flags : Flags
deriving DecidableEq

/-- The emission loop of `encode_rcost`: one tuple per cost node,
appended to `phead`; `rtnl` receives the first tuple; a failed
`attrlist_create` returns −1 with the tuples appended so far kept. -/
def encode_rcost_loop (tbl : List String) (flags : Flags)
    (entries : List CostEntry) (atname : String) (oracle : List Bool)
    (phead : List SvrAttrl) (rtnl : Option SvrAttrl) (first : Bool) :
    Int × List SvrAttrl × Option SvrAttrl :=
  match entries with
  | [] => (1, phead, rtnl)
  | e :: rest =>
    if oracle.headD true then
      let pal : SvrAttrl :=
        ⟨atname, tbl.getD e.rc_def "", sprintf_ld e.rc_cost, flags⟩
      encode_rcost_loop tbl flags rest atname oracle.tail (phead ++ [pal])
        (if first then some pal else rtnl) false
    else (-1, phead, rtnl)

/-- `encode_rcost(attr, phead, atname, rsname, mode, rtnl)` (the `rsname`
and `mode` arguments are unused by the source).  Result: the returned
code, the attrlist after the call, and the final value of `*rtnl`
(`none` = never written).  The `attr == NULL` guard is outside the
embedding (Lean values cannot be null). -/
def encode_rcost (tbl : List String) (attr : CostAttr)
    (phead : List SvrAttrl) (atname : String) (oracle : List Bool) :
    Int × List SvrAttrl × Option SvrAttrl :=
  if attr.at_flags.set = false then (0, phead, none)
  else encode_rcost_loop tbl attr.at_flags attr.at_list atname oracle phead none true

/-! ## The attribute-operation wire decoder (`dec_attropl.c`)

The DIS transport is embedded as a token stream; the heap of
`struct attropl` nodes as an association list from allocation ids to
node states, so that allocation, linking through `next`, freeing and
leaking are all observable. -/

/-- One primitive value on the wire: an unsigned integer or a string. -/
inductive Tok
  | ui (n : Nat)
  | st (s : String)
deriving DecidableEq

/-- Modelled from the spec: `disrui` (§6 `read_unsigned_int`) delivers
the next unsigned integer of the stream with status 0, or a non-zero
status on a truncated or malformed stream. -/
def disrui : List Tok → Nat × Nat × List Tok
  | Tok.ui n :: rest => (n, 0, rest)
  | s => (0, DIS_PROTO, s)

/-- Modelled from the spec: `disrst` (§6 `read_string`) delivers the
next string of the stream (a freshly owned value) with status 0, or
`none` and a non-zero status on a truncated or malformed stream. -/
def disrst : List Tok → Option String × Nat × List Tok
  | Tok.st s :: rest => (some s, 0, rest)
  | s => (none, DIS_PROTO, s)

/-- One `struct attropl` node: the four decoded fields plus the `next`
pointer (an allocation id, or `none` for `NULL`). -/
structure APNode where
  name : Option String
  resource : Option String
  value : Option String
  op : Nat
  next : Option Nat
deriving DecidableEq

/-- Decoder state: the remaining stream, the `malloc` oracle, the next
allocation id, the live (allocated, unfreed) nodes in allocation order,
the ids freed so far, and the current value of the caller's `*ppatt`
(`none` = never written). -/
structure DecState where
  stream : List Tok
  oracle : List Bool
  nextId : Nat
  live : List (Nat × APNode)
  freed : List Nat
  ppatt : Option Nat
deriving DecidableEq

/-- Write through a node pointer: update the node with id `id`. -/
def setNode (l : List (Nat × APNode)) (id : Nat) (f : APNode → APNode) :
    List (Nat × APNode) :=
  l.map (fun p => if p.1 = id then (p.1, f p.2) else p)

/-- Modelled from the spec: `PBS_free_aopl` walks the linked list
reachable from its argument through `next` ("exactly one linked list to
walk and free", §4.3) and releases every node on it.  Fuelled walk over
the live-node heap. -/
def PBS_free_aopl_go (fuel : Nat) (s : DecState) (cur : Option Nat) : DecState :=
  match fuel, cur with
  | 0, _ => s
  | _, none => s
  | fuel + 1, some id =>
    match s.live.find? (fun p => p.1 == id) with
    | none => s
    | some (_, nd) =>
      PBS_free_aopl_go fuel
        { s with live := s.live.filter (fun p => p.1 != id),
                 freed := s.freed ++ [id] }
        nd.next

/-- `PBS_free_aopl(pat)` on the decoder state. -/
def PBS_free_aopl (s : DecState) (pat : Option Nat) : DecState :=
  PBS_free_aopl_go s.live.length s pat

/-- Outcome of the decoding `for` loop: the status `rc` at loop exit,
the state, the final value of the local `pat`, and whether the loop was
left by the early `return DIS_NOMALLOC` (which skips the cleanup call). -/
structure LoopOut where
  rc : Nat
  st : DecState
  pat : Option Nat
  mallocFail : Bool
deriving DecidableEq

/-- The `for (i = 0; i < numpat; ++i)` body of `decode_DIS_attropl`,
field reads in source order; every `if (rc) break` becomes an early
result with `rc`.  `i = 0` marks the iteration that assigns `*ppatt`. -/
def decLoop : Nat → Nat → DecState → Option Nat → Option Nat → LoopOut
  | 0, _, st, pat, _ => ⟨0, st, pat, false⟩
  | remaining + 1, i, st, pat, patprior =>
    let r1 := disrui st.stream
    let st1 := { st with stream := r1.2.2 }
    if r1.2.1 ≠ 0 then ⟨r1.2.1, st1, pat, false⟩
    else
      let ok := st1.oracle.headD true
      let st2 := { st1 with oracle := st1.oracle.tail }
      if ok = false then ⟨DIS_NOMALLOC, st2, pat, true⟩
      else
        let id := st2.nextId
        let st3 := { st2 with nextId := id + 1,
                              live := st2.live ++ [(id, (⟨none, none, none, 0, none⟩ : APNode))] }
        let r2 := disrst st3.stream
        let st4 := { st3 with stream := r2.2.2,
                              live := setNode st3.live id (fun nd => { nd with name := r2.1 }) }
        if r2.2.1 ≠ 0 then ⟨r2.2.1, st4, some id, false⟩
        else
          let r3 := disrui st4.stream
          let st5 := { st4 with stream := r3.2.2 }
          if r3.2.1 ≠ 0 then ⟨r3.2.1, st5, some id, false⟩
          else
            let hasresc := r3.1
            let afterResc : Nat × DecState :=
              if hasresc ≠ 0 then
                let r4 := disrst st5.stream
                (r4.2.1, { st5 with stream := r4.2.2,
                                    live := setNode st5.live id (fun nd => { nd with resource := r4.1 }) })
              else (0, st5)
            let st6 := afterResc.2
            if afterResc.1 ≠ 0 then ⟨afterResc.1, st6, some id, false⟩
            else
              let r5 := disrst st6.stream
              let st7 := { st6 with stream := r5.2.2,
                                    live := setNode st6.live id (fun nd => { nd with value := r5.1 }) }
              if r5.2.1 ≠ 0 then ⟨r5.2.1, st7, some id, false⟩
              else
                let r6 := disrui st7.stream
                let st8 := { st7 with stream := r6.2.2,
                                      live := setNode st7.live id (fun nd => { nd with op := r6.1 }) }
                if r6.2.1 ≠ 0 then ⟨r6.2.1, st8, some id, false⟩
                else
                  let st9 :=
                    if i = 0 then { st8 with ppatt := some id }
                    else match patprior with
                         | some pid => { st8 with live := setNode st8.live pid (fun nd => { nd with next := some id }) }
                         | none => st8
                  decLoop remaining (i + 1) st9 (some id) (some id)

/-- `decode_DIS_attropl(sock, ppatt)`: read the count, run the loop,
and on a non-`DIS_NOMALLOC` failure call `PBS_free_aopl(pat)`.  Result:
the returned status and the final state (stream, heap, `*ppatt`). -/
def decode_DIS_attropl (stream : List Tok) (oracle : List Bool) : Nat × DecState :=
  let st0 : DecState := ⟨stream, oracle, 0, [], [], none⟩
  let r0 := disrui st0.stream
  let st1 := { st0 with stream := r0.2.2 }
  if r0.2.1 ≠ 0 then (r0.2.1, st1)
  else
    let out := decLoop r0.1 0 st1 none none
    if out.mallocFail then (out.rc, out.st)
    else if out.rc ≠ 0 then (out.rc, PBS_free_aopl out.st out.pat)
    else (0, out.st)

/-! ## Queue persistence (`queue_recov_db.c`)

The database client (`pbs_db_*`), the bulk attribute save/recover
(`save_attr_db`/`recov_attr_db`) and the queue allocator
(`que_alloc`/`que_free`) are outside the sample; they are modelled from
the spec's §6 contract as an outcome oracle: each call's status (and,
for loads, its payload) is a field of `DbConn`. -/

/-- The fixed `qu_qs` sub-structure of a queue. -/
structure QueQS where
  qu_name : String
  qu_type : Nat
  qu_ctime : Int
  qu_mtime : Int
deriving DecidableEq

/-- An in-memory `pbs_queue`: fixed sub-structure plus the attribute
array (attribute values abstracted, since the claims never inspect
them). -/
structure PbsQueue where
  qu_qs : QueQS
  qu_attr : List Nat
deriving DecidableEq

/-- A `pbs_db_que_info_t` row as returned by `pbs_db_load_obj`. -/
structure DbRow where
  qu_name : String
  qu_type : Nat
  qu_ctime : Int
  qu_mtime : Int
deriving DecidableEq

/-- Modelled from the spec: outcomes of the §6 database contract for
one save/recover call — `pbs_db_begin_trx`, `pbs_db_insert_obj`,
`pbs_db_update_obj`, `pbs_db_delete_obj`, `pbs_db_load_obj` (row or
failure), `save_attr_db`, `recov_attr_db` (attribute array or failure)
and `pbs_db_end_trx(COMMIT)`. -/
structure DbConn where
  begin_ok : Bool
  insert_ok : Bool
  update_ok : Bool
  delete_ok : Bool
  load_row : Option DbRow
  save_attr_ok : Bool
  load_attrs : Option (List Nat)
  commit_ok : Bool
deriving DecidableEq

/-- `QUE_SAVE_FULL` save mode (numeric value nominal; only the branch
structure matters). -/
def QUE_SAVE_FULL : Nat := 0

/-- `QUE_SAVE_NEW` save mode. -/
def QUE_SAVE_NEW : Nat := 1

/-- `que_save_db(pque, mode)`: begin, branch on mode (insert / delete
then insert, the delete status being discarded / update), bulk
attribute save, commit; any failing step takes the `db_err` path (log,
rollback, `panic_stop_db`) and returns −1. -/
def que_save_db (pque : PbsQueue) (mode : Nat) (conn : DbConn) : Int :=
  if conn.begin_ok = false then -1
  else
    let rowStepOk :=
      if mode = QUE_SAVE_NEW then conn.insert_ok
      else if mode = QUE_SAVE_FULL then
        let _deleted := conn.delete_ok
        conn.insert_ok
      else conn.update_ok
    if rowStepOk = false then -1
    else if conn.save_attr_ok = false then -1
    else if conn.commit_ok = false then -1
    else 0

/-- Outcome of `que_recov_db`: the returned pointer, whether a queue
record was allocated, and whether it was released again
(`que_free` on the `db_err` path). -/
structure RecovOutcome where
  result : Option PbsQueue
  allocated : Bool
  freed : Bool
deriving DecidableEq

/-- `que_recov_db(qname)`: `que_alloc`, begin, `pbs_db_load_obj`,
`db_to_svr_que`, `recov_attr_db`, commit; any failure after the
allocation rolls back, frees the record and returns `NULL`
(`allocOk` is the `que_alloc` outcome). -/
def que_recov_db (qname : String) (conn : DbConn) (allocOk : Bool) :
    RecovOutcome :=
  if allocOk = false then ⟨none, false, false⟩
  else
    -- que_alloc: zero-initialized record carrying the requested name
    let pq0 : PbsQueue := ⟨⟨qname, 0, 0, 0⟩, []⟩
    if conn.begin_ok = false then ⟨none, true, true⟩
    else
      match conn.load_row with
      | none => ⟨none, true, true⟩
      | some row =>
        -- db_to_svr_que
        let pq1 : PbsQueue := { pq0 with qu_qs := ⟨row.qu_name, row.qu_type, row.qu_ctime, row.qu_mtime⟩ }
        match conn.load_attrs with
        | none => ⟨none, true, true⟩
        | some attrs =>
          let pq2 := { pq1 with qu_attr := attrs }
          if conn.commit_ok = false then ⟨none, true, true⟩
          else ⟨some pq2, true, false⟩

/-! ## Derived notions used by the statements -/

/-- The cost recorded for resource `d`: the cost of the first matching
node (the node every lookup loop in the source stops at). -/
def lookupCost (l : List CostEntry) (d : Nat) : Option Int :=
  (l.find? (fun e => e.rc_def == d)).map (fun e => e.rc_cost)

/-- At most one node per distinct resource definition. -/
def nodupDefs (l : List CostEntry) : Prop :=
  (l.map (fun e => e.rc_def)).Nodup

/-- A source attribute holding `SET` and the single entry `(d, a)`. -/
def singleCost (d : Nat) (a : Int) : CostAttr :=
  ⟨⟨true, false, false⟩, [⟨d, a⟩]⟩

/-- A freshly initialised (all clear, empty) cost attribute. -/
def freshCostAttr : CostAttr :=
  ⟨⟨false, false, false⟩, []⟩

/-- The wire tuple `encode_rcost` emits for one cost node. -/
def encTuple (tbl : List String) (flags : Flags) (atname : String)
    (e : CostEntry) : SvrAttrl :=
  ⟨atname, tbl.getD e.rc_def "", sprintf_ld e.rc_cost, flags⟩

/-- Every character of the list is a decimal digit. -/
def allDigits (cs : List Char) : Prop :=
  ∀ c ∈ cs, isDigitCh c = true

/-! ## Lemmas about the cost-list primitives -/

theorem updateCost_map_def (l : List CostEntry) (d : Nat) (f : Int → Int) :
    (updateCost l d f).map (fun e => e.rc_def) = l.map (fun e => e.rc_def) := by
  induction l with
  | nil => rfl
  | cons e es ih =>
    unfold updateCost
    by_cases h : e.rc_def = d <;> simp [h, ih]

theorem any_updateCost (l : List CostEntry) (d d' : Nat) (f : Int → Int) :
    (updateCost l d f).any (fun x => x.rc_def == d') =
      l.any (fun x => x.rc_def == d') := by
  induction l with
  | nil => rfl
  | cons e es ih =>
    unfold updateCost
    by_cases h : e.rc_def = d <;> simp [h, ih]

theorem updateCost_append_notfound (l : List CostEntry) (d : Nat) (c : Int)
    (f : Int → Int) (h : l.any (fun x => x.rc_def == d) = false) :
    updateCost (l ++ [⟨d, c⟩]) d f = l ++ [⟨d, f c⟩] := by
  induction l with
  | nil => simp [updateCost]
  | cons e es ih =>
    simp only [List.any_cons, Bool.or_eq_false_iff] at h
    have hne : ¬ e.rc_def = d := by
      intro hd; rw [hd] at h; simp at h
    simp [updateCost, hne, ih h.2]

theorem updateCost_comp (l : List CostEntry) (d : Nat) (f g : Int → Int) :
    updateCost (updateCost l d f) d g = updateCost l d (fun c => g (f c)) := by
  induction l with
  | nil => rfl
  | cons e es ih =>
    unfold updateCost
    by_cases h : e.rc_def = d <;> simp [h, updateCost, ih]

theorem updateCost_ext (l : List CostEntry) (d : Nat) (f g : Int → Int)
    (h : ∀ c, f c = g c) : updateCost l d f = updateCost l d g := by
  induction l with
  | nil => rfl
  | cons e es ih =>
    unfold updateCost
    by_cases hd : e.rc_def = d <;> simp [hd, h, ih]

theorem lookupCost_updateCost_const (l : List CostEntry) (d : Nat) (a : Int)
    (h : l.any (fun x => x.rc_def == d) = true) :
    lookupCost (updateCost l d (fun _ => a)) d = some a := by
  induction l with
  | nil => simp at h
  | cons e es ih =>
    by_cases hd : e.rc_def = d
    · simp [updateCost, hd, lookupCost]
    · simp only [List.any_cons, Bool.or_eq_true_iff] at h
      rcases h with h | h
      · exact absurd (by simpa using h) hd
      · simpa [updateCost, hd, lookupCost] using ih h

theorem find_resc_def_eq_none (tbl : List String) (name : String)
    (h : name ∉ tbl) : find_resc_def tbl name = none := by
  induction tbl with
  | nil => rfl
  | cons r rest ih =>
    simp only [List.mem_cons, not_or] at h
    have : ¬ r = name := fun hr => h.1 hr.symm
    simp [find_resc_def, this, ih h.2]

theorem find_resc_def_getD (tbl : List String) (name : String) (i : Nat)
    (h : find_resc_def tbl name = some i) : tbl.getD i "" = name := by
  induction tbl generalizing i with
  | nil => simp [find_resc_def] at h
  | cons r rest ih =>
    by_cases hr : r = name
    · simp [find_resc_def, hr] at h
      simp [← h, hr]
    · simp only [find_resc_def, hr, if_false, Option.map_eq_some'] at h
      obtain ⟨j, hj, rfl⟩ := h
      simpa [List.getD] using ih j hj

/-! ## `atol` inverts `sprintf("%ld")` -/

theorem isDigitCh_digitChar (d : Nat) : isDigitCh (digitChar d) = true := by
  unfold digitChar
  split_ifs <;> decide

theorem digitVal_digitChar (d : Nat) (h : d < 10) :
    digitVal (digitChar d) = d := by
  interval_cases d <;> decide

theorem not_space_of_digit (c : Char) (h : isDigitCh c = true) :
    isSpaceCh c = false := by
  unfold isSpaceCh
  simp only [Bool.or_eq_false_iff, decide_eq_false_iff_not]
  refine ⟨⟨⟨⟨⟨?_, ?_⟩, ?_⟩, ?_⟩, ?_⟩, ?_⟩ <;>
    (rintro rfl; exact absurd h (by decide))

theorem ne_minus_of_digit (c : Char) (h : isDigitCh c = true) : ¬ c = '-' := by
  rintro rfl; exact absurd h (by decide)

theorem ne_plus_of_digit (c : Char) (h : isDigitCh c = true) : ¬ c = '+' := by
  rintro rfl; exact absurd h (by decide)

theorem allDigits_natDecCharsAux :
    ∀ fuel n, n < fuel → allDigits (natDecCharsAux fuel n) := by
  intro fuel
  induction fuel with
  | zero => intro n h; omega
  | succ fuel ih =>
    intro n h
    unfold natDecCharsAux
    by_cases hn : n < 10
    · simp only [hn, if_true]
      intro c hc
      simp only [List.mem_singleton] at hc
      subst hc
      exact isDigitCh_digitChar n
    · simp only [hn, if_false]
      have hdiv : n / 10 < fuel := by
        have h1 : n / 10 < n := Nat.div_lt_self (by omega) (by omega)
        omega
      intro c hc
      rcases List.mem_append.mp hc with hc | hc
      · exact ih (n / 10) hdiv c hc
      · simp only [List.mem_singleton] at hc
        subst hc
        exact isDigitCh_digitChar (n % 10)

theorem natDecCharsAux_ne_nil (fuel n : Nat) (h : n < fuel) :
    natDecCharsAux fuel n ≠ [] := by
  cases fuel with
  | zero => omega
  | succ fuel =>
    unfold natDecCharsAux
    by_cases hn : n < 10 <;> simp [hn]

theorem atolDigits_append (xs ys : List Char) (acc : Int) (h : allDigits xs) :
    atolDigits (xs ++ ys) acc = atolDigits ys (atolDigits xs acc) := by
  induction xs generalizing acc with
  | nil => rfl
  | cons c cs ih =>
    have hc : isDigitCh c = true := h c (List.mem_cons_self c cs)
    have hcs : allDigits cs := fun x hx => h x (List.mem_cons_of_mem c hx)
    simp [atolDigits, hc, ih _ hcs]

theorem atolDigits_natDecCharsAux :
    ∀ fuel n, n < fuel → ∀ acc : Int,
      atolDigits (natDecCharsAux fuel n) acc =
        acc * 10 ^ (natDecCharsAux fuel n).length + n := by
  intro fuel
  induction fuel with
  | zero => intro n h; omega
  | succ fuel ih =>
    intro n h acc
    by_cases hn : n < 10
    · simp only [natDecCharsAux, hn, if_true]
      simp [atolDigits, isDigitCh_digitChar, digitVal_digitChar n hn]
    · simp only [natDecCharsAux, hn, if_false]
      have hdiv : n / 10 < fuel := by
        have h1 : n / 10 < n := Nat.div_lt_self (by omega) (by omega)
        omega
      rw [atolDigits_append _ _ _ (allDigits_natDecCharsAux fuel (n / 10) hdiv)]
      rw [ih (n / 10) hdiv acc]
      have hmod : digitVal (digitChar (n % 10)) = ((n % 10 : Nat) : Int) :=
        digitVal_digitChar (n % 10) (Nat.mod_lt n (by omega))
      simp only [atolDigits, isDigitCh_digitChar, if_true, List.length_append,
        List.length_singleton, hmod]
      have hdm : ((n / 10 : Nat) : Int) * 10 + ((n % 10 : Nat) : Int) = (n : Int) := by
        have := Nat.div_add_mod n 10
        push_cast
        omega
      rw [pow_succ]
      linear_combination hdm

theorem atolDigits_natDecChars (n : Nat) :
    atolDigits (natDecChars n) 0 = (n : Int) := by
  have := atolDigits_natDecCharsAux (n + 1) n (Nat.lt_succ_self n) 0
  unfold natDecChars
  simpa using this

theorem skipSpace_cons_not (c : Char) (cs : List Char) (h : isSpaceCh c = false) :
    skipSpace (c :: cs) = c :: cs := by
  simp [skipSpace, h]

theorem atolChars_natDecChars (n : Nat) : atolChars (natDecChars n) = (n : Int) := by
  obtain ⟨c, cs, hc⟩ :=
    List.exists_cons_of_ne_nil (natDecCharsAux_ne_nil (n + 1) n (Nat.lt_succ_self n))
  have hcs : natDecChars n = c :: cs := hc
  have hdig : isDigitCh c = true :=
    allDigits_natDecCharsAux (n + 1) n (Nat.lt_succ_self n) c
      (by rw [hc]; exact List.mem_cons_self c cs)
  have hval := atolDigits_natDecChars n
  unfold atolChars
  rw [hcs, skipSpace_cons_not c cs (not_space_of_digit c hdig)]
  show (if c = '-' then - atolDigits cs 0
        else if c = '+' then atolDigits cs 0
        else atolDigits (c :: cs) 0) = (n : Int)
  rw [if_neg (ne_minus_of_digit c hdig), if_neg (ne_plus_of_digit c hdig), ← hcs, hval]

theorem atolChars_neg_natDecChars (n : Nat) :
    atolChars ('-' :: natDecChars n) = -(n : Int) := by
  have hval := atolDigits_natDecChars n
  unfold atolChars
  rw [skipSpace_cons_not '-' _ (by decide)]
  show (if ('-' : Char) = '-' then - atolDigits (natDecChars n) 0
        else if ('-' : Char) = '+' then atolDigits (natDecChars n) 0
        else atolDigits ('-' :: natDecChars n) 0) = -(n : Int)
  rw [if_pos rfl, hval]

theorem atol_sprintf_ld (v : Int) : atol (sprintf_ld v) = v := by
  unfold sprintf_ld atol
  by_cases hv : v < 0
  · simp only [hv, if_true]
    show atolChars ('-' :: natDecChars v.natAbs) = v
    rw [atolChars_neg_natDecChars]
    omega
  · simp only [hv, if_false]
    show atolChars (natDecChars v.toNat) = v
    rw [atolChars_natDecChars]
    omega

/-! ## Claim C1 -/

/-- C1 as stated is false: `decode_rcost` frees the previous `SET`
payload before it resolves the resource name.  At this input the result
code is `UnknownResource` but the attribute's entry list has been
emptied and its `SET` flag cleared, so the prior payload is not
preserved. -/
theorem C1_counterexample :
    (decode_rcost ["ncpus"] ⟨⟨true, false, false⟩, [⟨0, 5⟩]⟩ "cost"
        (some "mem") (some "3") true).1 = PBSE_UNKRESC ∧
    (decode_rcost ["ncpus"] ⟨⟨true, false, false⟩, [⟨0, 5⟩]⟩ "cost"
        (some "mem") (some "3") true).2 =
      ⟨⟨false, false, false⟩, []⟩ ∧
    (⟨⟨false, false, false⟩, []⟩ : CostAttr) ≠ ⟨⟨true, false, false⟩, [⟨0, 5⟩]⟩ := by
  decide

/-- C1 (amended): for a resource name absent from the table and a
non-null value, `decode_rcost` returns `UnknownResource`; the attribute
is unchanged when its `SET` flag was clear, but when `SET` was present
the payload has already been freed (entry list emptied, `SET` cleared)
by the free-before-lookup step. -/
theorem C1_unknown_resource (tbl : List String) (patr : CostAttr)
    (name rescn v : String) (allocOk : Bool) (h : rescn ∉ tbl) :
    decode_rcost tbl patr name (some rescn) (some v) allocOk =
      (PBSE_UNKRESC, if patr.at_flags.set then free_rcost patr else patr) := by
  have hfind := find_resc_def_eq_none tbl rescn h
  simp [decode_rcost, hfind]

theorem C1_unknown_resource_witness :
    "mem" ∉ ["ncpus"] ∧
    decode_rcost ["ncpus"] ⟨⟨true, false, false⟩, [⟨0, 5⟩]⟩ "cost"
        (some "mem") (some "3") true =
      (PBSE_UNKRESC,
        if (⟨⟨true, false, false⟩, [⟨0, 5⟩]⟩ : CostAttr).at_flags.set
        then free_rcost ⟨⟨true, false, false⟩, [⟨0, 5⟩]⟩
        else ⟨⟨true, false, false⟩, [⟨0, 5⟩]⟩) :=
  ⟨by decide, C1_unknown_resource _ _ _ _ _ _ (by decide)⟩

/-! ## Claim C4 -/

/-- C4 as stated is false: a null value string succeeds and clears
`SET`, but the entry list is left exactly as it was — the source
returns before any free of the payload, so the payload is not empty
afterwards. -/
theorem C4_counterexample :
    decode_rcost [] ⟨⟨true, false, false⟩, [⟨0, 5⟩]⟩ "cost" none none true =
      (0, ⟨⟨false, true, false⟩, [⟨0, 5⟩]⟩) ∧
    (⟨⟨false, true, false⟩, [⟨0, 5⟩]⟩ : CostAttr).at_list ≠ [] := by
  decide

/-- C4 (amended): with a null value string (or a null resource name)
`decode_rcost` succeeds, the flags become `MODIFY` without `SET`
(`MODCACHE` untouched), and the entry list is left exactly as it was
(it is not freed). -/
theorem C4_null_value_clears (tbl : List String) (patr : CostAttr)
    (name : String) (rescn val : Option String) (allocOk : Bool)
    (h : val = none ∨ rescn = none) :
    decode_rcost tbl patr name rescn val allocOk =
      (0, { patr with at_flags := { patr.at_flags with set := false, modify := true } }) := by
  cases val with
  | none => simp [decode_rcost]
  | some v =>
    cases rescn with
    | none => simp [decode_rcost]
    | some rn => simp at h

theorem C4_null_value_clears_witness :
    ((some "3" : Option String) = none ∨ (none : Option String) = none) ∧
    decode_rcost [] ⟨⟨true, false, true⟩, [⟨0, 5⟩]⟩ "cost" none (some "3") true =
      (0, { (⟨⟨true, false, true⟩, [⟨0, 5⟩]⟩ : CostAttr) with
            at_flags := { (⟨⟨true, false, true⟩, [⟨0, 5⟩]⟩ : CostAttr).at_flags with
                          set := false, modify := true } }) :=
  ⟨Or.inr rfl, C4_null_value_clears _ _ _ _ _ _ (Or.inr rfl)⟩

/-! ## Claim C3 -/

/-- C3 as stated is false: with an unsupported operator `set_rcost`
does return `InternalError`, but only after the find-or-create step has
already appended a fresh zero-cost node for the first source resource,
so the target's entry list is not unchanged. -/
theorem C3_counterexample :
    set_rcost ⟨⟨false, false, false⟩, []⟩ ⟨⟨true, false, false⟩, [⟨0, 5⟩]⟩
        BatchOp.UNSET [] =
      some (PBSE_INTERNAL, ⟨⟨false, false, false⟩, [⟨0, 0⟩]⟩) ∧
    ([⟨0, 0⟩] : List CostEntry) ≠ [] := by
  decide

/-- C3 (amended): for a source with `SET` and at least one entry and an
operator outside {assign, increment, decrement}, `set_rcost` returns
`InternalError` at the first source entry; the target's flags are
unchanged, and its entry list is unchanged except that a zero-cost node
for the first source resource has been appended when the target had
none (and the allocation succeeded). -/
theorem C3_unsupported_operator (old new : CostAttr) (op : BatchOp)
    (oracle : List Bool) (e : CostEntry) (rest : List CostEntry)
    (hset : new.at_flags.set = true) (hl : new.at_list = e :: rest)
    (hop : op ≠ BatchOp.SET ∧ op ≠ BatchOp.INCR ∧ op ≠ BatchOp.DECR)
    (halloc : oracle.headD true = true) :
    set_rcost old new op oracle =
      some (PBSE_INTERNAL,
        { old with at_list :=
            if old.at_list.any (fun x => x.rc_def == e.rc_def) then old.at_list
            else old.at_list ++ [⟨e.rc_def, 0⟩] }) := by
  obtain ⟨h1, h2, h3⟩ := hop
  unfold set_rcost
  rw [hset]
  simp only [Bool.true_eq_false, if_false]
  unfold set_rcost_loop
  rw [hl]
  simp only [halloc, Bool.not_true, Bool.and_false, Bool.and_true]
  cases op <;> simp_all [add_cost_entry, PBSE_INTERNAL]

theorem C3_unsupported_operator_witness :
    ((⟨⟨true, false, false⟩, [⟨0, 5⟩]⟩ : CostAttr).at_flags.set = true) ∧
    (BatchOp.UNSET ≠ BatchOp.SET ∧ BatchOp.UNSET ≠ BatchOp.INCR ∧
      BatchOp.UNSET ≠ BatchOp.DECR) ∧
    set_rcost ⟨⟨false, true, false⟩, []⟩ ⟨⟨true, false, false⟩, [⟨0, 5⟩]⟩
        BatchOp.UNSET [] =
      some (PBSE_INTERNAL, ⟨⟨false, true, false⟩, [⟨0, 0⟩]⟩) := by
  refine ⟨rfl, by decide, ?_⟩
  have h := C3_unsupported_operator ⟨⟨false, true, false⟩, []⟩
      ⟨⟨true, false, false⟩, [⟨0, 5⟩]⟩ BatchOp.UNSET [] ⟨0, 5⟩ []
      rfl rfl (by decide) rfl
  simpa using h

/-! ## Claim C7 -/

theorem set_rcost_single_SET (old : CostAttr) (d : Nat) (a : Int) :
    set_rcost old (singleCost d a) BatchOp.SET [] =
      some (0, setFlags
        { old with at_list :=
            updateCost (if old.at_list.any (fun x => x.rc_def == d) then old.at_list
                        else old.at_list ++ [⟨d, 0⟩]) d (fun _ => a) }) := by
  simp [set_rcost, singleCost, set_rcost_loop, add_cost_entry]

theorem set_rcost_single_INCR (old : CostAttr) (d : Nat) (a : Int) :
    set_rcost old (singleCost d a) BatchOp.INCR [] =
      some (0, setFlags
        { old with at_list :=
            updateCost (if old.at_list.any (fun x => x.rc_def == d) then old.at_list
                        else old.at_list ++ [⟨d, 0⟩]) d (fun c => c + a) }) := by
  simp [set_rcost, singleCost, set_rcost_loop, add_cost_entry]

theorem set_rcost_single_DECR (old : CostAttr) (d : Nat) (a : Int) :
    set_rcost old (singleCost d a) BatchOp.DECR [] =
      some (0, setFlags
        { old with at_list :=
            updateCost (if old.at_list.any (fun x => x.rc_def == d) then old.at_list
                        else old.at_list ++ [⟨d, 0⟩]) d (fun c => c - a) }) := by
  simp [set_rcost, singleCost, set_rcost_loop, add_cost_entry]

/-- The list after the find-or-create step always holds a node for `d`. -/
theorem any_findOrCreate (l : List CostEntry) (d : Nat) :
    ((if l.any (fun x => x.rc_def == d) then l else l ++ [⟨d, 0⟩]).any
       (fun x => x.rc_def == d)) = true := by
  by_cases h : l.any (fun x => x.rc_def == d) = true
  · simp [h]
  · simp only [Bool.not_eq_true] at h
    simp [h, List.any_append]

/-- C7: with operator assign, `set_rcost` from a single-entry source
`(d, a)` leaves cost `a` for resource `d` whatever the prior value, and
increment (dually decrement) by `a` then by `b` produces exactly the
attribute produced by one increment (decrement) by `a + b`. -/
theorem C7_assign_overwrites_incr_accumulates (old : CostAttr) (d : Nat)
    (a b : Int) :
    (∃ o1, set_rcost old (singleCost d a) BatchOp.SET [] = some (0, o1) ∧
      lookupCost o1.at_list d = some a) ∧
    (∃ o1, set_rcost old (singleCost d a) BatchOp.INCR [] = some (0, o1) ∧
      set_rcost o1 (singleCost d b) BatchOp.INCR [] =
        set_rcost old (singleCost d (a + b)) BatchOp.INCR []) ∧
    (∃ o1, set_rcost old (singleCost d a) BatchOp.DECR [] = some (0, o1) ∧
      set_rcost o1 (singleCost d b) BatchOp.DECR [] =
        set_rcost old (singleCost d (a + b)) BatchOp.DECR []) := by
  refine ⟨⟨_, set_rcost_single_SET old d a, ?_⟩,
          ⟨_, set_rcost_single_INCR old d a, ?_⟩,
          ⟨_, set_rcost_single_DECR old d a, ?_⟩⟩
  · exact lookupCost_updateCost_const _ d a (any_findOrCreate old.at_list d)
  · rw [set_rcost_single_INCR, set_rcost_single_INCR]
    simp only [setFlags]
    rw [if_pos (by rw [any_updateCost]; exact any_findOrCreate old.at_list d)]
    rw [updateCost_comp]
    rw [updateCost_ext _ d _ (fun c => c + (a + b)) (fun c => by ring)]
  · rw [set_rcost_single_DECR, set_rcost_single_DECR]
    simp only [setFlags]
    rw [if_pos (by rw [any_updateCost]; exact any_findOrCreate old.at_list d)]
    rw [updateCost_comp]
    rw [updateCost_ext _ d _ (fun c => c - (a + b)) (fun c => by ring)]

/-! ## Claim C8 -/

theorem nodupDefs_updateCost (l : List CostEntry) (d : Nat) (f : Int → Int)
    (h : nodupDefs l) : nodupDefs (updateCost l d f) := by
  unfold nodupDefs
  rw [updateCost_map_def]
  exact h

theorem nodupDefs_append_notfound (l : List CostEntry) (d : Nat) (c : Int)
    (hl : nodupDefs l) (h : l.any (fun x => x.rc_def == d) = false) :
    nodupDefs (l ++ [⟨d, c⟩]) := by
  have hmem : d ∉ l.map (fun e => e.rc_def) := by
    intro hd
    obtain ⟨e, he, hde⟩ := List.mem_map.mp hd
    rw [List.any_eq_false] at h
    exact h e he (by simp [hde])
  unfold nodupDefs at *
  simp [List.nodup_append, hl, hmem]

theorem nodupDefs_set_rcost_loop (news : List CostEntry) :
    ∀ oldl op oracle, nodupDefs oldl →
      nodupDefs (set_rcost_loop oldl news op oracle).2 := by
  induction news with
  | nil => intro oldl op oracle h; simpa [set_rcost_loop] using h
  | cons e rest ih =>
    intro oldl op oracle h
    unfold set_rcost_loop
    by_cases hf : oldl.any (fun x => x.rc_def == e.rc_def) = true
    · rw [hf]
      simp only [Bool.not_true, Bool.false_and, Bool.false_eq_true, if_false, if_true]
      cases op <;>
        first
          | exact ih _ _ _ (nodupDefs_updateCost _ _ _ h)
          | exact h
    · simp only [Bool.not_eq_true] at hf
      rw [hf]
      have hadd : nodupDefs (add_cost_entry oldl e.rc_def) :=
        nodupDefs_append_notfound oldl e.rc_def 0 h hf
      simp only [Bool.not_false, Bool.true_and, Bool.false_eq_true, if_false]
      by_cases ho : oracle.headD true = true
      · rw [ho]
        simp only [Bool.not_true, Bool.false_eq_true, if_false]
        cases op <;>
          first
            | exact ih _ _ _ (nodupDefs_updateCost _ _ _ hadd)
            | exact hadd
      · simp only [Bool.not_eq_true] at ho
        rw [ho]
        simp only [Bool.not_false, if_true]
        exact h

theorem nodupDefs_decode_rcost (tbl : List String) (patr : CostAttr)
    (name : String) (rescn val : Option String) (allocOk : Bool)
    (h : nodupDefs patr.at_list) :
    nodupDefs (decode_rcost tbl patr name rescn val allocOk).2.at_list := by
  cases val with
  | none => simpa [decode_rcost] using h
  | some v =>
    cases rescn with
    | none => simpa [decode_rcost] using h
    | some rn =>
      have hp1 : nodupDefs (if patr.at_flags.set then free_rcost patr else patr).at_list := by
        by_cases hs : patr.at_flags.set
        · simp [hs, free_rcost, nodupDefs]
        · simpa [hs] using h
      simp only [decode_rcost]
      cases hfind : find_resc_def tbl rn with
      | none => simpa [hfind] using hp1
      | some i =>
        simp only [hfind]
        by_cases hany : (if patr.at_flags.set then free_rcost patr else patr).at_list.any
            (fun e => e.rc_def == i) = true
        · simpa [hany] using nodupDefs_updateCost _ i _ hp1
        · simp only [Bool.not_eq_true] at hany
          cases hao : allocOk
          · simpa [hany, hao] using hp1
          · simp only [hany, hao, Bool.false_eq_true, if_false, if_true]
            exact nodupDefs_updateCost _ i _
              (nodupDefs_append_notfound _ i 0 hp1 hany)

/-- C8: both mutation paths use lookup-or-insert, so a successful
`decode_rcost` or `set_rcost` preserves the invariant that the cost
list holds at most one node per distinct resource definition. -/
theorem C8_at_most_one_entry_per_def (tbl : List String) (patr : CostAttr)
    (name : String) (rescn val : Option String) (allocOk : Bool)
    (old new : CostAttr) (op : BatchOp) (oracle : List Bool)
    (h1 : nodupDefs patr.at_list) (h2 : nodupDefs old.at_list) :
    ((decode_rcost tbl patr name rescn val allocOk).1 = 0 →
      nodupDefs (decode_rcost tbl patr name rescn val allocOk).2.at_list) ∧
    (∀ rc old', set_rcost old new op oracle = some (rc, old') → rc = 0 →
      nodupDefs old'.at_list) := by
  constructor
  · intro _
    exact nodupDefs_decode_rcost tbl patr name rescn val allocOk h1
  · intro rc old' hset hrc
    have hloop := nodupDefs_set_rcost_loop new.at_list old.at_list op oracle h2
    unfold set_rcost at hset
    by_cases hs : new.at_flags.set = false
    · simp [hs] at hset
    · simp only [hs, if_false] at hset
      split_ifs at hset with h0 <;>
        (injection hset with hset; injection hset with hrc2 hattr;
         rw [← hattr]; simpa [setFlags] using hloop)

theorem C8_witness :
    nodupDefs ([⟨0, 5⟩] : List CostEntry) ∧ nodupDefs ([] : List CostEntry) ∧
    (((decode_rcost ["ncpus"] ⟨⟨true, false, false⟩, [⟨0, 5⟩]⟩ "cost"
         (some "ncpus") (some "7") true).1 = 0 →
       nodupDefs (decode_rcost ["ncpus"] ⟨⟨true, false, false⟩, [⟨0, 5⟩]⟩ "cost"
         (some "ncpus") (some "7") true).2.at_list) ∧
     (∀ rc old', set_rcost ⟨⟨false, false, false⟩, []⟩ ⟨⟨true, false, false⟩, [⟨1, 3⟩]⟩
         BatchOp.INCR [] = some (rc, old') → rc = 0 → nodupDefs old'.at_list)) :=
  ⟨by unfold nodupDefs; decide, by unfold nodupDefs; decide,
    C8_at_most_one_entry_per_def ["ncpus"] ⟨⟨true, false, false⟩, [⟨0, 5⟩]⟩ "cost"
      (some "ncpus") (some "7") true ⟨⟨false, false, false⟩, []⟩
      ⟨⟨true, false, false⟩, [⟨1, 3⟩]⟩ BatchOp.INCR []
      (by unfold nodupDefs; decide) (by unfold nodupDefs; decide)⟩

/-! ## Claim C9 -/

/-- C9 as stated is false: with `SET` present `encode_rcost` returns 1
whatever the number of entries.  Here the attribute holds two entries,
two tuples are appended, yet the returned count is 1, not 2. -/
theorem C9_counterexample :
    (encode_rcost ["a", "b"] ⟨⟨true, false, false⟩, [⟨0, 1⟩, ⟨1, 2⟩]⟩ [] "cost" []).1 = 1 ∧
    (encode_rcost ["a", "b"] ⟨⟨true, false, false⟩, [⟨0, 1⟩, ⟨1, 2⟩]⟩ [] "cost" []).2.1.length = 2 ∧
    (1 : Int) ≠ 2 := by
  decide

theorem encode_rcost_loop_go (tbl : List String) (fl : Flags) (atname : String) :
    ∀ (entries : List CostEntry) (phead : List SvrAttrl) (r : Option SvrAttrl),
      encode_rcost_loop tbl fl entries atname [] phead r false =
        (1, phead ++ entries.map (encTuple tbl fl atname), r) := by
  intro entries
  induction entries with
  | nil => intro phead r; simp [encode_rcost_loop]
  | cons e rest ih =>
    intro phead r
    simp only [encode_rcost_loop, List.headD_nil, if_true, List.tail_nil]
    rw [ih]
    simp [encTuple]

/-- C9 (amended): when `SET` is absent `encode_rcost` returns 0 and
appends nothing; when `SET` is present (and every allocation succeeds)
it appends exactly one tuple per cost entry — named after the
attribute, carrying the resource's registered name and the decimal
string of the cost — hands the first tuple back through `rtnl`, and
returns 1 (not the number of tuples). -/
theorem C9_encode_one_tuple_per_entry (tbl : List String) (attr : CostAttr)
    (phead : List SvrAttrl) (atname : String) :
    (attr.at_flags.set = false →
      encode_rcost tbl attr phead atname [] = (0, phead, none)) ∧
    (attr.at_flags.set = true →
      encode_rcost tbl attr phead atname [] =
        (1, phead ++ attr.at_list.map (encTuple tbl attr.at_flags atname),
         (attr.at_list.map (encTuple tbl attr.at_flags atname)).head?)) := by
  constructor
  · intro h
    simp [encode_rcost, h]
  · intro h
    unfold encode_rcost
    rw [h]
    simp only [Bool.true_eq_false, if_false]
    cases hl : attr.at_list with
    | nil => simp [encode_rcost_loop]
    | cons e rest =>
      simp only [encode_rcost_loop, List.headD_nil, if_true, List.tail_nil]
      rw [encode_rcost_loop_go]
      simp [encTuple]

theorem C9_encode_one_tuple_per_entry_witness :
    ((⟨⟨true, false, false⟩, [⟨0, 1⟩, ⟨1, 2⟩]⟩ : CostAttr).at_flags.set = true) ∧
    encode_rcost ["a", "b"] ⟨⟨true, false, false⟩, [⟨0, 1⟩, ⟨1, 2⟩]⟩ [] "cost" [] =
      (1, [] ++ ([⟨0, 1⟩, ⟨1, 2⟩] : List CostEntry).map
            (encTuple ["a", "b"] ⟨true, false, false⟩ "cost"),
       (([⟨0, 1⟩, ⟨1, 2⟩] : List CostEntry).map
            (encTuple ["a", "b"] ⟨true, false, false⟩ "cost")).head?) :=
  ⟨rfl, (C9_encode_one_tuple_per_entry ["a", "b"]
    ⟨⟨true, false, false⟩, [⟨0, 1⟩, ⟨1, 2⟩]⟩ [] "cost").2 rfl⟩

/-! ## Claim C2 -/

/-- C2: at a stream announcing two entries and truncated inside the
second one, the decoder returns a non-zero status, but the first entry
is still allocated (only the second, unlinked node was freed by
`PBS_free_aopl(pat)`) and the caller's `*ppatt` still designates it —
the promised full cleanup does not happen. -/
theorem C2_truncated_stream_leaks :
    (decode_DIS_attropl [Tok.ui 2, Tok.ui 0, Tok.st "a", Tok.ui 0, Tok.st "v",
        Tok.ui 0, Tok.ui 0] []).1 = DIS_PROTO ∧
    DIS_PROTO ≠ 0 ∧
    (decode_DIS_attropl [Tok.ui 2, Tok.ui 0, Tok.st "a", Tok.ui 0, Tok.st "v",
        Tok.ui 0, Tok.ui 0] []).2.live =
      [(0, ⟨some "a", none, some "v", 0, none⟩)] ∧
    (decode_DIS_attropl [Tok.ui 2, Tok.ui 0, Tok.st "a", Tok.ui 0, Tok.st "v",
        Tok.ui 0, Tok.ui 0] []).2.freed = [1] ∧
    (decode_DIS_attropl [Tok.ui 2, Tok.ui 0, Tok.st "a", Tok.ui 0, Tok.st "v",
        Tok.ui 0, Tok.ui 0] []).2.ppatt = some 0 := by
  decide

/-! ## Claim C6 -/

/-- C6: once the queue record is allocated, a failure of any later step
of `que_recov_db` — transaction begin, row load, attribute load or
commit — yields the `NULL` result with the record released, and a
record is returned only when every step succeeded, fully populated from
the loaded row and attribute set. -/
theorem C6_recov_failure_releases_record (qname : String) (conn : DbConn) :
    ((conn.begin_ok = false ∨ conn.load_row = none ∨ conn.load_attrs = none ∨
        conn.commit_ok = false) →
      que_recov_db qname conn true = ⟨none, true, true⟩) ∧
    (∀ q, (que_recov_db qname conn true).result = some q →
      conn.begin_ok = true ∧
      (∃ row, conn.load_row = some row ∧
        q.qu_qs = ⟨row.qu_name, row.qu_type, row.qu_ctime, row.qu_mtime⟩) ∧
      (∃ attrs, conn.load_attrs = some attrs ∧ q.qu_attr = attrs) ∧
      conn.commit_ok = true ∧
      (que_recov_db qname conn true).freed = false) := by
  constructor
  · intro h
    unfold que_recov_db
    cases hb : conn.begin_ok
    · simp
    · cases hrow : conn.load_row with
      | none => simp
      | some row =>
        cases hattrs : conn.load_attrs with
        | none => simp
        | some attrs =>
          cases hc : conn.commit_ok
          · simp
          · simp [hb, hrow, hattrs, hc] at h
  · intro q hq
    unfold que_recov_db at hq ⊢
    cases hb : conn.begin_ok
    · rw [hb] at hq; simp at hq
    · rw [hb] at hq
      cases hrow : conn.load_row with
      | none => rw [hrow] at hq; simp at hq
      | some row =>
        rw [hrow] at hq
        cases hattrs : conn.load_attrs with
        | none => rw [hattrs] at hq; simp at hq
        | some attrs =>
          rw [hattrs] at hq
          cases hc : conn.commit_ok
          · rw [hc] at hq; simp at hq
          · rw [hc] at hq
            simp only [Bool.true_eq_false, if_false] at hq
            simp only [Option.some_inj] at hq
            refine ⟨rfl, ⟨row, rfl, ?_⟩, ⟨attrs, rfl, ?_⟩, rfl, ?_⟩
            · rw [← hq]
            · rw [← hq]
            · simp [hb, hrow, hattrs, hc]

theorem C6_recov_failure_releases_record_witness :
    (((⟨true, true, true, true, none, true, some [], true⟩ : DbConn).begin_ok = false ∨
      (⟨true, true, true, true, none, true, some [], true⟩ : DbConn).load_row = none ∨
      (⟨true, true, true, true, none, true, some [], true⟩ : DbConn).load_attrs = none ∨
      (⟨true, true, true, true, none, true, some [], true⟩ : DbConn).commit_ok = false) →
      que_recov_db "q1" ⟨true, true, true, true, none, true, some [], true⟩ true =
        ⟨none, true, true⟩) ∧
    (∀ q, (que_recov_db "q1" ⟨true, true, true, true, none, true, some [], true⟩ true).result = some q →
      (⟨true, true, true, true, none, true, some [], true⟩ : DbConn).begin_ok = true ∧
      (∃ row, (⟨true, true, true, true, none, true, some [], true⟩ : DbConn).load_row = some row ∧
        q.qu_qs = ⟨row.qu_name, row.qu_type, row.qu_ctime, row.qu_mtime⟩) ∧
      (∃ attrs, (⟨true, true, true, true, none, true, some [], true⟩ : DbConn).load_attrs = some attrs ∧
        q.qu_attr = attrs) ∧
      (⟨true, true, true, true, none, true, some [], true⟩ : DbConn).commit_ok = true ∧
      (que_recov_db "q1" ⟨true, true, true, true, none, true, some [], true⟩ true).freed = false) :=
  C6_recov_failure_releases_record "q1" ⟨true, true, true, true, none, true, some [], true⟩

/-! ## Claim C10 -/

/-- C10: in full-replace mode `que_save_db` discards the status of the
row delete, so (with the transaction open) the outcome is the same
whether or not a pre-existing row was there to delete, and the
operation succeeds exactly when the insert, the bulk attribute save and
the commit all succeed. -/
theorem C10_full_save_ignores_delete (pque : PbsQueue) (conn : DbConn)
    (hbegin : conn.begin_ok = true) :
    (∀ b : Bool, que_save_db pque QUE_SAVE_FULL { conn with delete_ok := b } =
      que_save_db pque QUE_SAVE_FULL conn) ∧
    (que_save_db pque QUE_SAVE_FULL conn = 0 ↔
      (conn.insert_ok = true ∧ conn.save_attr_ok = true ∧ conn.commit_ok = true)) := by
  constructor
  · intro b
    simp [que_save_db, QUE_SAVE_FULL, QUE_SAVE_NEW]
  · unfold que_save_db
    rw [hbegin]
    cases hi : conn.insert_ok <;> cases hs : conn.save_attr_ok <;>
      cases hc : conn.commit_ok <;>
        simp [QUE_SAVE_FULL, QUE_SAVE_NEW]

theorem C10_full_save_ignores_delete_witness :
    ((⟨true, true, false, false, none, true, none, true⟩ : DbConn).begin_ok = true) ∧
    ((∀ b : Bool, que_save_db ⟨⟨"q1", 1, 0, 0⟩, []⟩ QUE_SAVE_FULL
        { (⟨true, true, false, false, none, true, none, true⟩ : DbConn) with delete_ok := b } =
      que_save_db ⟨⟨"q1", 1, 0, 0⟩, []⟩ QUE_SAVE_FULL
        ⟨true, true, false, false, none, true, none, true⟩) ∧
    (que_save_db ⟨⟨"q1", 1, 0, 0⟩, []⟩ QUE_SAVE_FULL
        ⟨true, true, false, false, none, true, none, true⟩ = 0 ↔
      ((⟨true, true, false, false, none, true, none, true⟩ : DbConn).insert_ok = true ∧
       (⟨true, true, false, false, none, true, none, true⟩ : DbConn).save_attr_ok = true ∧
       (⟨true, true, false, false, none, true, none, true⟩ : DbConn).commit_ok = true))) :=
  ⟨rfl, C10_full_save_ignores_delete ⟨⟨"q1", 1, 0, 0⟩, []⟩
    ⟨true, true, false, false, none, true, none, true⟩ rfl⟩

/-! ## Claim C5 -/

theorem decode_rcost_fresh (tbl : List String) (r c : String) (i : Nat)
    (h : find_resc_def tbl r = some i) :
    decode_rcost tbl freshCostAttr "cost" (some r) (some c) true =
      (0, ⟨⟨true, true, true⟩, [⟨i, atol c⟩]⟩) := by
  unfold decode_rcost freshCostAttr
  simp [h, updateCost, add_cost_entry, setFlags]

/-- C5: decoding a registered resource `r` with value string `c` into a
fresh cost attribute yields the single entry `(r, atol c)`; encoding
that attribute emits exactly one tuple carrying `r` and the decimal
string of `atol c`; and decoding that emitted tuple into a fresh
attribute reproduces the same single `(r, atol c)` entry. -/
theorem C5_roundtrip (tbl : List String) (r c : String) (i : Nat)
    (h : find_resc_def tbl r = some i) :
    decode_rcost tbl freshCostAttr "cost" (some r) (some c) true =
      (0, ⟨⟨true, true, true⟩, [⟨i, atol c⟩]⟩) ∧
    encode_rcost tbl ⟨⟨true, true, true⟩, [⟨i, atol c⟩]⟩ [] "cost" [] =
      (1, [⟨"cost", r, sprintf_ld (atol c), ⟨true, true, true⟩⟩],
        some ⟨"cost", r, sprintf_ld (atol c), ⟨true, true, true⟩⟩) ∧
    decode_rcost tbl freshCostAttr "cost" (some r)
        (some (sprintf_ld (atol c))) true =
      (0, ⟨⟨true, true, true⟩, [⟨i, atol c⟩]⟩) := by
  have hget := find_resc_def_getD tbl r i h
  simp only [List.getD, List.get?_eq_getElem?] at hget
  refine ⟨decode_rcost_fresh tbl r c i h, ?_, ?_⟩
  · simp [encode_rcost, encode_rcost_loop, hget]
  · rw [decode_rcost_fresh tbl r (sprintf_ld (atol c)) i h, atol_sprintf_ld]

theorem C5_roundtrip_witness :
    find_resc_def ["ncpus"] "ncpus" = some 0 ∧
    (decode_rcost ["ncpus"] freshCostAttr "cost" (some "ncpus") (some "5") true =
      (0, ⟨⟨true, true, true⟩, [⟨0, atol "5"⟩]⟩) ∧
    encode_rcost ["ncpus"] ⟨⟨true, true, true⟩, [⟨0, atol "5"⟩]⟩ [] "cost" [] =
      (1, [⟨"cost", "ncpus", sprintf_ld (atol "5"), ⟨true, true, true⟩⟩],
        some ⟨"cost", "ncpus", sprintf_ld (atol "5"), ⟨true, true, true⟩⟩) ∧
    decode_rcost ["ncpus"] freshCostAttr "cost" (some "ncpus")
        (some (sprintf_ld (atol "5"))) true =
      (0, ⟨⟨true, true, true⟩, [⟨0, atol "5"⟩]⟩)) :=
  ⟨by decide, C5_roundtrip ["ncpus"] "ncpus" "5" 0 (by decide)⟩

end PbsPro
